import Mathlib

/-!
# Verification of the FX tenor-date engine (`tenor_dates.py`)

Shallow embedding of the `TenorDates` class. Calendar dates are rata-die
integers (day 0 = 1970-01-01, a Thursday); Gregorian year/month/day views are
computed with the standard civil-from-days / days-from-civil algorithms.
The holiday calendar (`holidays.country_holidays(code)` membership tests) is
an injected oracle `String → Int → Bool` keyed by the 2-letter country codes
of `ccy_country_code`. Fallible Python operations (asserts, dictionary
lookups, `int()` parsing, and the unbounded recursive date walks, the latter
made total with an explicit fuel parameter) are embedded in `Except Err`.
-/

namespace TenorDates

/-! ## Calendar arithmetic -/

/-- Gregorian calendar date (year, month 1–12, day 1–31). -/
structure Ymd where
  year : Int
  month : Int
  day : Int
deriving DecidableEq

/-- Leap-year rule of the Gregorian calendar. -/
def isLeap (y : Int) : Bool :=
  (y.emod 4 == 0 && y.emod 100 != 0) || y.emod 400 == 0

/-- Number of days in a Gregorian month. -/
def daysInMonth (y m : Int) : Int :=
  if m = 2 then (if isLeap y then 29 else 28)
  else if m = 4 ∨ m = 6 ∨ m = 9 ∨ m = 11 then 30
  else 31

/-- Rata-die day number of a Gregorian date (0 = 1970-01-01). -/
def daysFromCivil (y m d : Int) : Int :=
  let y1 := if m ≤ 2 then y - 1 else y
  let era := y1.fdiv 400
  let yoe := y1 - era * 400
  let mp := (m + 9).emod 12
  let doy := (153 * mp + 2).fdiv 5 + d - 1
  let doe := yoe * 365 + yoe.fdiv 4 - yoe.fdiv 100 + doy
  era * 146097 + doe - 719468

/-- Gregorian date of a rata-die day number (inverse of `daysFromCivil`). -/
def civilFromDays (z : Int) : Ymd :=
  let z1 := z + 719468
  let era := z1.fdiv 146097
  let doe := z1 - era * 146097
  let yoe := (doe - doe.fdiv 1460 + doe.fdiv 36524 - doe.fdiv 146096).fdiv 365
  let y := yoe + era * 400
  let doy := doe - (365 * yoe + yoe.fdiv 4 - yoe.fdiv 100)
  let mp := (5 * doy + 2).fdiv 153
  let d := doy - (153 * mp + 2).fdiv 5 + 1
  let m := if mp < 10 then mp + 3 else mp - 9
  ⟨if m ≤ 2 then y + 1 else y, m, d⟩

/-- Day of week: 0 = Sunday … 6 = Saturday (day 0, 1970-01-01, is Thursday). -/
def weekdayOf (z : Int) : Int := (z + 4).emod 7

/-- Monday through Friday; embeds `bool(len(pd.bdate_range(date, date)))`. -/
def isWeekday (z : Int) : Bool :=
  decide (1 ≤ weekdayOf z ∧ weekdayOf z ≤ 5)

/-- `date.day == 1 and date.month == 1` of the source. -/
def isJan1 (z : Int) : Bool :=
  (civilFromDays z).month == 1 && (civilFromDays z).day == 1

/-- `relativedelta(months = n)`: month arithmetic with end-of-month clamping. -/
def addMonths (z : Int) (n : Int) : Int :=
  let c := civilFromDays z
  let t := c.month - 1 + n
  let y := c.year + t.fdiv 12
  let m := t.emod 12 + 1
  daysFromCivil y m (min c.day (daysInMonth y m))

/-- Signed month distance `12*(Δyear) + (Δmonth)` from `z1` to `z2`. -/
def monthDistance (z1 z2 : Int) : Int :=
  12 * ((civilFromDays z2).year - (civilFromDays z1).year)
    + ((civilFromDays z2).month - (civilFromDays z1).month)

/-! ## Data model -/

/-- The supported currencies (`supported_ccy`). -/
inductive Ccy
  | USD | GBP | EUR | JPY | CHF | AUD | CAD | NZD | SEK | NOK
deriving DecidableEq

/-- A constructed currency pair: the constructor of `TenorDates` requires a
6-character string whose two halves are supported currencies, so a pair is
exactly an ordered pair of supported legs. -/
abbrev Pair := Ccy × Ccy

/-- Second component of `ccy_country_code`: the country code passed to
`holidays.country_holidays`. -/
def countryCode : Ccy → String
  | .USD => "US"
  | .GBP => "GB"
  | .EUR => "ECB"
  | .JPY => "JP"
  | .CHF => "CH"
  | .AUD => "AU"
  | .CAD => "CA"
  | .NZD => "NZ"
  | .SEK => "SE"
  | .NOK => "NO"

/-- The injected holiday oracle: `hol code z` embeds
`date ∈ holidays.country_holidays(code)`. -/
abbrev Oracle := String → Int → Bool

/-- Ways an engine operation can fail. `countryKey` is the
`holidays.country_holidays("")` failure after `replace("USD", "")` empties a
USDUSD pair; `notBusinessDay` / `notValidSpot` are the two assertion errors;
`inputError` is the explicit `InputError` of the unrecognized-tenor branch;
`valueError` is `int()` failing to parse; `indexError` is `tenor[-1]` on an
empty string; `fuelExhausted` marks the recursion depth at which this
embedding cuts off the source's unbounded recursive walks. -/
inductive Err
  | fuelExhausted
  | countryKey
  | notBusinessDay
  | notValidSpot
  | inputError
  | valueError
  | indexError
deriving DecidableEq

/-! ## Validity predicates -/

/-- `is_business_day`.  The source tests `"USD" in self.ccy` (true exactly when
a leg is USD: no supported currency ends in "U" or "US", so the substring
cannot straddle the two legs) and then looks up
`ccy_country_code[self.ccy.replace("USD", "")]`; for the pair USDUSD the
replacement leaves the empty string and the lookup raises, which is the
`countryKey` error.  Otherwise the result is: weekday, and not a holiday in
the relevant calendar(s). -/
def is_business_day (hol : Oracle) (p : Pair) (z : Int) : Except Err Bool :=
  if p.1 = Ccy.USD ∨ p.2 = Ccy.USD then
    if p.1 = Ccy.USD ∧ p.2 = Ccy.USD then
      .error .countryKey
    else
      let other := if p.1 = Ccy.USD then p.2 else p.1
      .ok (isWeekday z && !hol (countryCode other) z)
  else
    .ok (isWeekday z && !hol (countryCode p.1) z && !hol (countryCode p.2) z)

/-- `is_valid_spot`: a business day that is additionally not a US holiday,
checked unconditionally against `ccy_country_code["USD"][1] = "US"`. -/
def is_valid_spot (hol : Oracle) (p : Pair) (z : Int) : Except Err Bool :=
  (is_business_day hol p z).map (fun b => b && !hol (countryCode Ccy.USD) z)

/-- `is_valid_expiry`: weekday, not January 1st, and at least one of the two
legs' markets open (note the disjunction, and that no USD special-casing
happens here). -/
def is_valid_expiry (hol : Oracle) (p : Pair) (z : Int) : Bool :=
  isWeekday z && !isJan1 z
    && (!hol (countryCode p.1) z || !hol (countryCode p.2) z)

/-! ## Directional date walks

The six source walks are each `date ± 1 day` then recurse until the predicate
holds; the recursion is unbounded in the source, so the embedding carries a
fuel parameter and returns `Err.fuelExhausted` when it runs out. -/

/-- One generic walk: step by `δ` (±1), test `P`, recurse on `false`,
propagate predicate errors, stop on `true`. -/
def walkE (δ : Int) (P : Int → Except Err Bool) : Nat → Int → Except Err Int
  | 0, _ => .error .fuelExhausted
  | f + 1, z =>
    match P (z + δ) with
    | .error e => .error e
    | .ok true => .ok (z + δ)
    | .ok false => walkE δ P f (z + δ)

/-- `next_business_day`. -/
def next_business_day (hol : Oracle) (p : Pair) (f : Nat) (z : Int) :
    Except Err Int :=
  walkE 1 (is_business_day hol p) f z

/-- `prev_business_day`. -/
def prev_business_day (hol : Oracle) (p : Pair) (f : Nat) (z : Int) :
    Except Err Int :=
  walkE (-1) (is_business_day hol p) f z

/-- `next_valid_spot`. -/
def next_valid_spot (hol : Oracle) (p : Pair) (f : Nat) (z : Int) :
    Except Err Int :=
  walkE 1 (is_valid_spot hol p) f z

/-- `prev_valid_spot`. -/
def prev_valid_spot (hol : Oracle) (p : Pair) (f : Nat) (z : Int) :
    Except Err Int :=
  walkE (-1) (is_valid_spot hol p) f z

/-- `next_valid_expiry` (`is_valid_expiry` is total, so the lifted predicate
never errors). -/
def next_valid_expiry (hol : Oracle) (p : Pair) (f : Nat) (z : Int) :
    Except Err Int :=
  walkE 1 (fun w => .ok (is_valid_expiry hol p w)) f z

/-- `prev_valid_expiry`. -/
def prev_valid_expiry (hol : Oracle) (p : Pair) (f : Nat) (z : Int) :
    Except Err Int :=
  walkE (-1) (fun w => .ok (is_valid_expiry hol p w)) f z

/-! ## Spot ⇄ horizon conversion -/

/-- Membership in `["USDCAD", "USDTRY", "USDPHP", "USDRUB"]`.  TRY, PHP and
RUB are not in `supported_ccy`, so of the four strings only USDCAD can name a
constructed pair. -/
def fastSettling (p : Pair) : Bool :=
  decide (p = (Ccy.USD, Ccy.CAD))

/-- `spot_from_horizon`: asserts the horizon is a business day, then T+1
(fast-settling pairs) or T+2 (next business day, then next valid spot). -/
def spot_from_horizon (hol : Oracle) (p : Pair) (f : Nat) (h : Int) :
    Except Err Int :=
  match is_business_day hol p h with
  | .error e => .error e
  | .ok false => .error .notBusinessDay
  | .ok true =>
    if fastSettling p then
      next_valid_spot hol p f h
    else
      match next_business_day hol p f h with
      | .error e => .error e
      | .ok b => next_valid_spot hol p f b

/-- `horizon_from_spot`: asserts the input is a valid spot, then steps back
one valid expiry (fast) or previous business day then previous valid expiry
(standard). -/
def horizon_from_spot (hol : Oracle) (p : Pair) (f : Nat) (s : Int) :
    Except Err Int :=
  match is_valid_spot hol p s with
  | .error e => .error e
  | .ok false => .error .notValidSpot
  | .ok true =>
    if fastSettling p then
      prev_valid_expiry hol p f s
    else
      match prev_business_day hol p f s with
      | .error e => .error e
      | .ok b => prev_valid_expiry hol p f b

/-! ## Tenor parsing and resolution -/

/-- Digit-string to number (`none` on the empty string or a non-digit). -/
def parseDigits (cs : List Char) : Option Nat :=
  if cs = [] then none
  else if cs.all Char.isDigit then
    some (cs.foldl (fun a c => a * 10 + (c.toNat - 48)) 0)
  else none

/-- Python `int(s)` on the tenor prefix: optional sign then digits.
(Python's `int` additionally tolerates surrounding whitespace and underscore
digit separators; no tenor in this development uses either.) -/
def parseIntPy (s : String) : Option Int :=
  match s.data with
  | '-' :: rest => (parseDigits rest).map (fun n => -(n : Int))
  | '+' :: rest => (parseDigits rest).map (fun n => (n : Int))
  | cs => (parseDigits cs).map (fun n => (n : Int))

/-- Python `tenor[:-1]`. -/
def strInit (s : String) : String :=
  String.mk s.data.dropLast

/-- The `while ((delivery_date.month - spot_date.month) > n_months)` loop of
`expiry_from_tenor`: note it compares the raw month number (1–12) of the
delivery date with the raw month number of the spot date, with no year
term. `f` bounds the loop, `w` fuels each inner `prev_valid_spot` walk. -/
def adjust_back (hol : Oracle) (p : Pair) (w : Nat) (spotMonth n : Int) :
    Nat → Int → Except Err Int
  | 0, dd =>
    if (civilFromDays dd).month - spotMonth > n then .error .fuelExhausted
    else .ok dd
  | f + 1, dd =>
    if (civilFromDays dd).month - spotMonth > n then
      match prev_valid_spot hol p w dd with
      | .error e => .error e
      | .ok dd1 => adjust_back hol p w spotMonth n f dd1
    else .ok dd

/-- Lines 286–295 of the source (the `M`/`Y` branch up to the delivery date):
spot from horizon, add `n` months, snap forward to a valid spot if needed,
then the backward month-comparison loop. -/
def delivery_from_tenor (hol : Oracle) (p : Pair) (f : Nat) (h : Int)
    (n : Int) : Except Err Int :=
  match spot_from_horizon hol p f h with
  | .error e => .error e
  | .ok s =>
    let dd := addMonths s n
    match
      ((match is_valid_spot hol p dd with
        | .error e => .error e
        | .ok true => .ok dd
        | .ok false => next_valid_spot hol p f dd) : Except Err Int) with
    | .error e => .error e
    | .ok dd1 => adjust_back hol p f (civilFromDays s).month n f dd1

/-- `expiry_from_tenor`: dispatch on the tenor string exactly as the source
does — `"ON"` first, then the last character (`tenor[-1]`, an IndexError on
the empty string) against `D`, `W`, `M`, `Y` with `int(tenor[:-1])` (a
ValueError when it does not parse), else the explicit `InputError`. -/
def expiry_from_tenor (hol : Oracle) (p : Pair) (f : Nat) (h : Int)
    (tenor : String) : Except Err Int :=
  if tenor = "ON" then next_valid_expiry hol p f h
  else
    match tenor.data.getLast? with
    | none => .error .indexError
    | some c =>
      if c = 'D' then
        match parseIntPy (strInit tenor) with
        | none => .error .valueError
        | some n =>
          let e := h + n
          if is_valid_expiry hol p e then .ok e
          else next_valid_expiry hol p f e
      else if c = 'W' then
        match parseIntPy (strInit tenor) with
        | none => .error .valueError
        | some n =>
          let e := h + n * 7
          if is_valid_expiry hol p e then .ok e
          else next_valid_expiry hol p f e
      else if c = 'M' ∨ c = 'Y' then
        match parseIntPy (strInit tenor) with
        | none => .error .valueError
        | some n0 =>
          let n := if c = 'M' then n0 else n0 * 12
          match delivery_from_tenor hol p f h n with
          | .error e => .error e
          | .ok dd =>
            match horizon_from_spot hol p f dd with
            | .error e => .error e
            | .ok ex =>
              if is_valid_expiry hol p ex then .ok ex
              else prev_valid_expiry hol p f ex
      else .error .inputError

/-- Classification of errors: the parse-related failures of tenor resolution
(`InputError`, `ValueError` from `int()`, `IndexError` from `tenor[-1]`), as
opposed to assertion, lookup, or search-depth failures. -/
def Err.isParseErr : Err → Bool
  | .inputError => true
  | .valueError => true
  | .indexError => true
  | _ => false

/-- The tenor strings on which the source's dispatch reaches a parse failure:
not `"ON"`, and either empty, or the last character outside `D`/`W`/`M`/`Y`,
or the remainder not parsing as an integer.  (Note this is *not* the spec's
well-formedness: `"0D"` and `"-3D"` are not malformed by this definition.) -/
def malformedTenor (t : String) : Bool :=
  if t = "ON" then false
  else
    match t.data.getLast? with
    | none => true
    | some c =>
      if c = 'D' ∨ c = 'W' ∨ c = 'M' ∨ c = 'Y' then
        (parseIntPy (strInit t)).isNone
      else true

/-! ## Concrete calendars used in the theorems -/

/-- The empty holiday calendar. -/
def noHol : Oracle := fun _ _ => false

/-- A calendar where every date is a holiday everywhere. -/
def allHol : Oracle := fun _ _ => true

/-- A calendar whose only holiday is 2021-07-02 in the United States. -/
def usHolJul2 : Oracle := fun c z => c == "US" && z == daysFromCivil 2021 7 2

/-- EURUSD, the pair of the spec's worked example. -/
def pEURUSD : Pair := (Ccy.EUR, Ccy.USD)

/-- USDCAD, the only constructible fast-settling pair. -/
def pUSDCAD : Pair := (Ccy.USD, Ccy.CAD)

/-- USDUSD: both legs USD, constructible since USD is a supported currency. -/
def pUSDUSD : Pair := (Ccy.USD, Ccy.USD)

/-- GBPGBP: a same-market pair with no USD leg. -/
def pGBPGBP : Pair := (Ccy.GBP, Ccy.GBP)

/-! ## Generic walk lemmas -/

/-- A successful forward walk returns a strictly later date within fuel range
satisfying the predicate, with the predicate false at every date strictly
between. -/
theorem walkE_pos_ok {P : Int → Except Err Bool} :
    ∀ (f : Nat) (z r : Int), walkE 1 P f z = .ok r →
      z < r ∧ r ≤ z + f ∧ P r = .ok true ∧
        ∀ x, z < x → x < r → P x = .ok false := by
  intro f
  induction f with
  | zero => intro z r h; simp [walkE] at h
  | succ f ih =>
    intro z r h
    rw [walkE] at h
    cases hP : P (z + 1) with
    | error e => simp [hP] at h
    | ok b =>
      cases b with
      | true =>
        simp [hP] at h
        subst h
        exact ⟨by omega, by omega, hP, fun x hx1 hx2 => by omega⟩
      | false =>
        simp [hP] at h
        obtain ⟨h1, h2, h3, h4⟩ := ih (z + 1) r h
        refine ⟨by omega, by omega, h3, fun x hx1 hx2 => ?_⟩
        rcases eq_or_lt_of_le (by omega : z + 1 ≤ x) with hx | hx
        · rw [← hx]; exact hP
        · exact h4 x hx hx2

/-- A successful backward walk returns a strictly earlier date within fuel
range satisfying the predicate, with the predicate false strictly between. -/
theorem walkE_neg_ok {P : Int → Except Err Bool} :
    ∀ (f : Nat) (z r : Int), walkE (-1) P f z = .ok r →
      r < z ∧ z - f ≤ r ∧ P r = .ok true ∧
        ∀ x, r < x → x < z → P x = .ok false := by
  intro f
  induction f with
  | zero => intro z r h; simp [walkE] at h
  | succ f ih =>
    intro z r h
    rw [walkE] at h
    cases hP : P (z + -1) with
    | error e => simp [hP] at h
    | ok b =>
      cases b with
      | true =>
        simp [hP] at h
        subst h
        exact ⟨by omega, by omega, hP, fun x hx1 hx2 => by omega⟩
      | false =>
        simp [hP] at h
        obtain ⟨h1, h2, h3, h4⟩ := ih (z + -1) r h
        refine ⟨by omega, by omega, h3, fun x hx1 hx2 => ?_⟩
        rcases eq_or_lt_of_le (by omega : x ≤ z - 1) with hx | hx
        · rw [show x = z + -1 by omega]; exact hP
        · exact h4 x hx1 (by omega)

/-- Completeness of the forward walk: it finds the least valid date when one
exists within fuel range. -/
theorem walkE_pos_complete {P : Int → Except Err Bool} :
    ∀ (f : Nat) (z r : Int), z < r → r ≤ z + f → P r = .ok true →
      (∀ x, z < x → x < r → P x = .ok false) →
      walkE 1 P f z = .ok r := by
  intro f
  induction f with
  | zero => intro z r h1 h2 _ _; exfalso; omega
  | succ f ih =>
    intro z r h1 h2 h3 h4
    rw [walkE]
    rcases eq_or_lt_of_le (by omega : z + 1 ≤ r) with hz | hz
    · rw [hz, h3]
    · have hP : P (z + 1) = .ok false := h4 _ (by omega) hz
      rw [hP]
      exact ih (z + 1) r hz (by omega) h3 (fun x hx1 hx2 => h4 x (by omega) hx2)

/-- Completeness of the backward walk: it finds the greatest valid date when
one exists within fuel range. -/
theorem walkE_neg_complete {P : Int → Except Err Bool} :
    ∀ (f : Nat) (z r : Int), r < z → z - f ≤ r → P r = .ok true →
      (∀ x, r < x → x < z → P x = .ok false) →
      walkE (-1) P f z = .ok r := by
  intro f
  induction f with
  | zero => intro z r h1 h2 _ _; exfalso; omega
  | succ f ih =>
    intro z r h1 h2 h3 h4
    rw [walkE]
    rcases eq_or_lt_of_le (by omega : r ≤ z - 1) with hz | hz
    · rw [show z + -1 = r by omega, h3]
    · have hP : P (z + -1) = .ok false := h4 _ (by omega) (by omega)
      rw [hP]
      exact ih (z + -1) r (by omega) (by omega) h3
        (fun x hx1 hx2 => h4 x hx1 (by omega))

/-- A walk over an everywhere-false predicate never finds anything: every
fuel bound is exhausted — the source recursion would never return. -/
theorem walkE_allFalse {δ : Int} {P : Int → Except Err Bool}
    (hP : ∀ x, P x = .ok false) :
    ∀ (f : Nat) (z : Int), walkE δ P f z = .error .fuelExhausted := by
  intro f
  induction f with
  | zero => intro z; rfl
  | succ f ih =>
    intro z
    rw [walkE, hP (z + δ)]
    exact ih (z + δ)

/-- Errors out of a walk are fuel exhaustion or an error of the predicate. -/
theorem walkE_error {δ : Int} {P : Int → Except Err Bool} :
    ∀ (f : Nat) (z : Int) (e : Err), walkE δ P f z = .error e →
      e = .fuelExhausted ∨ ∃ x, P x = .error e := by
  intro f
  induction f with
  | zero =>
    intro z e h
    left
    simpa [walkE] using h.symm
  | succ f ih =>
    intro z e h
    rw [walkE] at h
    cases hP : P (z + δ) with
    | error e2 =>
      simp [hP] at h
      exact Or.inr ⟨z + δ, h ▸ hP⟩
    | ok b =>
      cases b with
      | true => simp [hP] at h
      | false =>
        simp [hP] at h
        exact ih (z + δ) e h

/-! ## Predicate normal forms and error shapes -/

/-- On the pair USDUSD the business-day check always fails: `replace`
empties the currency string and the country-code lookup raises. -/
theorem is_business_day_USDUSD (hol : Oracle) (z : Int) :
    is_business_day hol pUSDUSD z = .error .countryKey := rfl

/-- With no holidays anywhere, business-day validity is weekday-ness for
every pair other than USDUSD. -/
theorem noHol_business {p : Pair} (hp : p ≠ pUSDUSD) (z : Int) :
    is_business_day noHol p z = .ok (isWeekday z) := by
  obtain ⟨a, b⟩ := p
  by_cases ha : a = Ccy.USD <;> by_cases hb : b = Ccy.USD
  · subst ha; subst hb; exact absurd rfl hp
  · simp [is_business_day, noHol, ha, hb]
  · simp [is_business_day, noHol, ha, hb]
  · simp [is_business_day, noHol, ha, hb]

/-- With no holidays anywhere, spot validity is weekday-ness for every pair
other than USDUSD. -/
theorem noHol_spot {p : Pair} (hp : p ≠ pUSDUSD) (z : Int) :
    is_valid_spot noHol p z = .ok (isWeekday z) := by
  rw [is_valid_spot, noHol_business hp]
  simp [Except.map, noHol]

/-- With no holidays anywhere, expiry validity is weekday-and-not-Jan-1. -/
theorem noHol_expiry (p : Pair) (z : Int) :
    is_valid_expiry noHol p z = (isWeekday z && !isJan1 z) := by
  simp [is_valid_expiry, noHol]

/-- When every date is a holiday everywhere, no date is an EURUSD business
day. -/
theorem allHol_business_EURUSD (z : Int) :
    is_business_day allHol pEURUSD z = .ok false := by
  simp [is_business_day, allHol, pEURUSD]

/-- When every date is a holiday everywhere, no date is an EURUSD valid
spot. -/
theorem allHol_spot_EURUSD (z : Int) :
    is_valid_spot allHol pEURUSD z = .ok false := by
  rw [is_valid_spot, allHol_business_EURUSD]; rfl

/-- When every date is a holiday everywhere, no date is an EURUSD valid
expiry. -/
theorem allHol_expiry_EURUSD (z : Int) :
    is_valid_expiry allHol pEURUSD z = false := by
  simp [is_valid_expiry, allHol]

/-- The only error the business-day predicate can raise is the USDUSD
country-code lookup failure. -/
theorem is_business_day_error {hol : Oracle} {p : Pair} {z : Int} {e : Err}
    (h : is_business_day hol p z = .error e) : e = .countryKey := by
  rw [is_business_day] at h
  split at h
  · split at h
    · injection h with h; exact h.symm
    · simp at h
  · simp at h

/-- The only error the spot-validity predicate can raise is the USDUSD
country-code lookup failure. -/
theorem is_valid_spot_error {hol : Oracle} {p : Pair} {z : Int} {e : Err}
    (h : is_valid_spot hol p z = .error e) : e = .countryKey := by
  rw [is_valid_spot] at h
  cases hb : is_business_day hol p z with
  | error e2 =>
    rw [hb] at h
    simp [Except.map] at h
    exact h ▸ is_business_day_error hb
  | ok b => rw [hb] at h; simp [Except.map] at h

/-! ## Operation unfolding lemmas -/

/-- Unfolding a successful `spot_from_horizon`: the business-day assertion
passed and the result came from the T+1 or T+2 walk chain. -/
theorem spot_from_horizon_ok {hol : Oracle} {p : Pair} {f : Nat} {h s : Int}
    (hs : spot_from_horizon hol p f h = .ok s) :
    is_business_day hol p h = .ok true ∧
      (fastSettling p = true → next_valid_spot hol p f h = .ok s) ∧
      (fastSettling p = false →
        ∃ b, next_business_day hol p f h = .ok b ∧
          next_valid_spot hol p f b = .ok s) := by
  rw [spot_from_horizon] at hs
  cases hb : is_business_day hol p h with
  | error e => rw [hb] at hs; simp at hs
  | ok b =>
    cases b with
    | false => rw [hb] at hs; simp at hs
    | true =>
      rw [hb] at hs
      simp only at hs
      refine ⟨rfl, fun hf => ?_, fun hf => ?_⟩
      · simpa [hf] using hs
      · simp only [hf, Bool.false_eq_true, if_false] at hs
        cases hnb : next_business_day hol p f h with
        | error e => rw [hnb] at hs; simp at hs
        | ok b2 => rw [hnb] at hs; exact ⟨b2, rfl, hs⟩

/-- A horizon that fails the business-day assertion makes
`spot_from_horizon` fail with the assertion error. -/
theorem spot_from_horizon_notBusiness {hol : Oracle} {p : Pair} {f : Nat}
    {h : Int} (hb : is_business_day hol p h = .ok false) :
    spot_from_horizon hol p f h = .error .notBusinessDay := by
  rw [spot_from_horizon, hb]

/-- Unfolding `horizon_from_spot` once the spot-validity assertion passes. -/
theorem horizon_from_spot_eq {hol : Oracle} {p : Pair} {f : Nat} {s : Int}
    (hv : is_valid_spot hol p s = .ok true) :
    horizon_from_spot hol p f s =
      (if fastSettling p then prev_valid_expiry hol p f s
       else
         match prev_business_day hol p f s with
         | .error e => .error e
         | .ok b => prev_valid_expiry hol p f b) := by
  rw [horizon_from_spot, hv]

/-- A non-valid-spot input makes `horizon_from_spot` fail with the
assertion error. -/
theorem horizon_from_spot_notValid {hol : Oracle} {p : Pair} {f : Nat}
    {s : Int} (hv : is_valid_spot hol p s = .ok false) :
    horizon_from_spot hol p f s = .error .notValidSpot := by
  rw [horizon_from_spot, hv]

/-- The backward month-adjustment loop only ever exits with the raw month
difference at most `n`. -/
theorem adjust_back_ok {hol : Oracle} {p : Pair} {w : Nat} {m n : Int} :
    ∀ (f : Nat) (dd dd1 : Int), adjust_back hol p w m n f dd = .ok dd1 →
      (civilFromDays dd1).month - m ≤ n := by
  intro f
  induction f with
  | zero =>
    intro dd dd1 h
    rw [adjust_back] at h
    split at h
    · simp at h
    · rename_i hc
      injection h with h
      subst h
      omega
  | succ f ih =>
    intro dd dd1 h
    rw [adjust_back] at h
    split at h
    · cases hp : prev_valid_spot hol p w dd with
      | error e => rw [hp] at h; simp at h
      | ok dd2 => rw [hp] at h; exact ih dd2 dd1 h
    · rename_i hc
      injection h with h
      subst h
      omega

/-- Walks over a predicate free of parse errors produce no parse errors. -/
theorem walkE_error_noParse {δ : Int} {P : Int → Except Err Bool}
    (hP : ∀ x e, P x = .error e → Err.isParseErr e = false)
    {f : Nat} {z : Int} {e : Err} (h : walkE δ P f z = .error e) :
    Err.isParseErr e = false := by
  rcases walkE_error f z e h with h1 | ⟨x, hx⟩
  · rw [h1]; rfl
  · exact hP x e hx

/-- The business-day predicate produces no parse errors. -/
theorem is_business_day_noParse (hol : Oracle) (p : Pair) (x : Int) (e : Err)
    (h : is_business_day hol p x = .error e) : Err.isParseErr e = false := by
  rw [is_business_day_error h]; rfl

/-- The spot-validity predicate produces no parse errors. -/
theorem is_valid_spot_noParse (hol : Oracle) (p : Pair) (x : Int) (e : Err)
    (h : is_valid_spot hol p x = .error e) : Err.isParseErr e = false := by
  rw [is_valid_spot_error h]; rfl

/-- `spot_from_horizon` produces no parse errors. -/
theorem spot_from_horizon_noParse {hol : Oracle} {p : Pair} {f : Nat}
    {h : Int} {e : Err} (he : spot_from_horizon hol p f h = .error e) :
    Err.isParseErr e = false := by
  rw [spot_from_horizon] at he
  cases hb : is_business_day hol p h with
  | error e2 =>
    rw [hb] at he
    injection he with he
    exact he ▸ is_business_day_noParse hol p h e2 hb
  | ok b =>
    cases b with
    | false => rw [hb] at he; injection he with he; rw [← he]; rfl
    | true =>
      rw [hb] at he
      simp only at he
      split at he
      · exact walkE_error_noParse (is_valid_spot_noParse hol p) he
      · cases hnb : next_business_day hol p f h with
        | error e2 =>
          rw [hnb] at he
          injection he with he
          exact he ▸ walkE_error_noParse (is_business_day_noParse hol p) hnb
        | ok b2 =>
          rw [hnb] at he
          exact walkE_error_noParse (is_valid_spot_noParse hol p) he

/-- `horizon_from_spot` produces no parse errors. -/
theorem horizon_from_spot_noParse {hol : Oracle} {p : Pair} {f : Nat}
    {s : Int} {e : Err} (he : horizon_from_spot hol p f s = .error e) :
    Err.isParseErr e = false := by
  rw [horizon_from_spot] at he
  cases hb : is_valid_spot hol p s with
  | error e2 =>
    rw [hb] at he
    injection he with he
    exact he ▸ is_valid_spot_noParse hol p s e2 hb
  | ok b =>
    cases b with
    | false => rw [hb] at he; injection he with he; rw [← he]; rfl
    | true =>
      rw [hb] at he
      simp only at he
      split at he
      · exact walkE_error_noParse (fun x e2 hx => by simp at hx) he
      · cases hnb : prev_business_day hol p f s with
        | error e2 =>
          rw [hnb] at he
          injection he with he
          exact he ▸ walkE_error_noParse (is_business_day_noParse hol p) hnb
        | ok b2 =>
          rw [hnb] at he
          exact walkE_error_noParse (fun x e2 hx => by simp at hx) he

/-- The backward month-adjustment loop produces no parse errors. -/
theorem adjust_back_noParse {hol : Oracle} {p : Pair} {w : Nat} {m n : Int} :
    ∀ (f : Nat) (dd : Int) (e : Err), adjust_back hol p w m n f dd = .error e →
      Err.isParseErr e = false := by
  intro f
  induction f with
  | zero =>
    intro dd e h
    rw [adjust_back] at h
    split at h
    · injection h with h; rw [← h]; rfl
    · simp at h
  | succ f ih =>
    intro dd e h
    rw [adjust_back] at h
    split at h
    · cases hp : prev_valid_spot hol p w dd with
      | error e2 =>
        rw [hp] at h
        injection h with h
        exact h ▸ walkE_error_noParse (is_valid_spot_noParse hol p) hp
      | ok dd2 => rw [hp] at h; exact ih dd2 e h
    · simp at h

/-- `delivery_from_tenor` produces no parse errors. -/
theorem delivery_from_tenor_noParse {hol : Oracle} {p : Pair} {f : Nat}
    {h n : Int} {e : Err} (he : delivery_from_tenor hol p f h n = .error e) :
    Err.isParseErr e = false := by
  rw [delivery_from_tenor] at he
  cases hs : spot_from_horizon hol p f h with
  | error e2 =>
    rw [hs] at he
    injection he with he
    exact he ▸ spot_from_horizon_noParse hs
  | ok s =>
    rw [hs] at he
    simp only at he
    cases hv : is_valid_spot hol p (addMonths s n) with
    | error e2 =>
      rw [hv] at he
      injection he with he
      exact he ▸ is_valid_spot_noParse hol p _ e2 hv
    | ok b =>
      cases b with
      | true =>
        rw [hv] at he
        simp only at he
        exact adjust_back_noParse f _ e he
      | false =>
        rw [hv] at he
        simp only at he
        cases hw : next_valid_spot hol p f (addMonths s n) with
        | error e2 =>
          rw [hw] at he
          injection he with he
          exact he ▸ walkE_error_noParse (is_valid_spot_noParse hol p) hw
        | ok dd1 =>
          rw [hw] at he
          simp only at he
          exact adjust_back_noParse f _ e he

/-- The expiry walks can only fail by exhausting fuel: their predicate is
total. -/
theorem next_valid_expiry_err {hol : Oracle} {p : Pair} {f : Nat} {z : Int}
    {e : Err} (h : next_valid_expiry hol p f z = .error e) :
    e = .fuelExhausted := by
  rcases walkE_error f z e h with h1 | ⟨x, hx⟩
  · exact h1
  · exact Except.noConfusion hx

/-- Backward analogue of `next_valid_expiry_err`. -/
theorem prev_valid_expiry_err {hol : Oracle} {p : Pair} {f : Nat} {z : Int}
    {e : Err} (h : prev_valid_expiry hol p f z = .error e) :
    e = .fuelExhausted := by
  rcases walkE_error f z e h with h1 | ⟨x, hx⟩
  · exact h1
  · exact Except.noConfusion hx

/-! ## Claim theorems -/

/-- C5: for every pair and date, `is_valid_spot` holds iff `is_business_day`
holds and the date is not a US holiday — the US check applied
unconditionally, whether or not USD is a leg — and hence spot validity
implies business-day validity. -/
theorem c5_valid_spot_characterization (hol : Oracle) (p : Pair) (z : Int) :
    (is_valid_spot hol p z = .ok true ↔
      is_business_day hol p z = .ok true ∧
        hol (countryCode Ccy.USD) z = false)
  ∧ (is_valid_spot hol p z = .ok true →
      is_business_day hol p z = .ok true) := by
  have key : is_valid_spot hol p z = .ok true ↔
      is_business_day hol p z = .ok true ∧
        hol (countryCode Ccy.USD) z = false := by
    rw [is_valid_spot]
    cases hb : is_business_day hol p z with
    | error e => simp [Except.map]
    | ok b => cases b <;> simp [Except.map]
  exact ⟨key, fun h => (key.mp h).1⟩

/-- Witness for C5 at EURUSD on 2014-06-11 (a Wednesday, no holidays). -/
theorem c5_witness :
    is_business_day noHol pEURUSD (daysFromCivil 2014 6 11) = .ok true ∧
      is_valid_spot noHol pEURUSD (daysFromCivil 2014 6 11) = .ok true :=
  ⟨(c5_valid_spot_characterization noHol pEURUSD
      (daysFromCivil 2014 6 11)).2 (by rfl), rfl⟩

/-- C6: for every pair and date, `is_valid_expiry` holds iff the date is a
weekday, not January 1st, and not a holiday in at least one leg's country
(disjunction); in particular it is false on every January 1st regardless of
weekday. -/
theorem c6_valid_expiry_characterization (hol : Oracle) (p : Pair) (z : Int) :
    (is_valid_expiry hol p z = true ↔
      (isWeekday z = true ∧ isJan1 z = false ∧
        (hol (countryCode p.1) z = false ∨ hol (countryCode p.2) z = false)))
  ∧ (isJan1 z = true → is_valid_expiry hol p z = false) := by
  constructor
  · rw [is_valid_expiry]
    cases isWeekday z <;> cases hj : isJan1 z <;>
      simp [Bool.and_eq_true, Bool.or_eq_true]
  · intro hj
    rw [is_valid_expiry, hj]
    simp

/-- Witness for C6: 2021-01-01 is a Friday (a weekday), yet not a valid
expiry. -/
theorem c6_witness :
    is_valid_expiry noHol pEURUSD (daysFromCivil 2021 1 1) = false ∧
      isWeekday (daysFromCivil 2021 1 1) = true :=
  ⟨(c6_valid_expiry_characterization noHol pEURUSD
      (daysFromCivil 2021 1 1)).2 (by rfl), rfl⟩

/-- C7: each directional walk, when it returns, returns the nearest date
strictly after (resp. strictly before) its input satisfying its validity
predicate — in particular never the input itself, and with the predicate
false at every date strictly between input and result. -/
theorem c7_walk_nearest (hol : Oracle) (p : Pair) (f : Nat) (z r : Int) :
    (next_business_day hol p f z = .ok r →
      z < r ∧ is_business_day hol p r = .ok true ∧
        ∀ x, z < x → x < r → is_business_day hol p x = .ok false)
  ∧ (prev_business_day hol p f z = .ok r →
      r < z ∧ is_business_day hol p r = .ok true ∧
        ∀ x, r < x → x < z → is_business_day hol p x = .ok false)
  ∧ (next_valid_spot hol p f z = .ok r →
      z < r ∧ is_valid_spot hol p r = .ok true ∧
        ∀ x, z < x → x < r → is_valid_spot hol p x = .ok false)
  ∧ (prev_valid_spot hol p f z = .ok r →
      r < z ∧ is_valid_spot hol p r = .ok true ∧
        ∀ x, r < x → x < z → is_valid_spot hol p x = .ok false)
  ∧ (next_valid_expiry hol p f z = .ok r →
      z < r ∧ is_valid_expiry hol p r = true ∧
        ∀ x, z < x → x < r → is_valid_expiry hol p x = false)
  ∧ (prev_valid_expiry hol p f z = .ok r →
      r < z ∧ is_valid_expiry hol p r = true ∧
        ∀ x, r < x → x < z → is_valid_expiry hol p x = false) := by
  refine ⟨fun h => ?_, fun h => ?_, fun h => ?_, fun h => ?_,
          fun h => ?_, fun h => ?_⟩
  · obtain ⟨h1, _, h3, h4⟩ := walkE_pos_ok f z r h
    exact ⟨h1, h3, h4⟩
  · obtain ⟨h1, _, h3, h4⟩ := walkE_neg_ok f z r h
    exact ⟨h1, h3, h4⟩
  · obtain ⟨h1, _, h3, h4⟩ := walkE_pos_ok f z r h
    exact ⟨h1, h3, h4⟩
  · obtain ⟨h1, _, h3, h4⟩ := walkE_neg_ok f z r h
    exact ⟨h1, h3, h4⟩
  · obtain ⟨h1, _, h3, h4⟩ := walkE_pos_ok f z r h
    exact ⟨h1, Except.ok.inj h3, fun x a b => Except.ok.inj (h4 x a b)⟩
  · obtain ⟨h1, _, h3, h4⟩ := walkE_neg_ok f z r h
    exact ⟨h1, Except.ok.inj h3, fun x a b => Except.ok.inj (h4 x a b)⟩

/-- Witness for C7: forward from Friday 2021-07-02 lands strictly later on
Monday 2021-07-05; backward from Thursday 2021-07-01 lands strictly earlier
on Wednesday 2021-06-30. -/
theorem c7_witness :
    daysFromCivil 2021 7 2 < daysFromCivil 2021 7 5 ∧
      is_business_day noHol pEURUSD (daysFromCivil 2021 7 5) = .ok true ∧
      daysFromCivil 2021 6 30 < daysFromCivil 2021 7 1 := by
  have h1 := (c7_walk_nearest noHol pEURUSD 100 (daysFromCivil 2021 7 2)
    (daysFromCivil 2021 7 5)).1 (by rfl)
  have h2 := (c7_walk_nearest noHol pEURUSD 100 (daysFromCivil 2021 7 1)
    (daysFromCivil 2021 6 30)).2.1 (by rfl)
  exact ⟨h1.1, h1.2.1, h2.1⟩

/-- C8: the source's walks impose no search horizon at all.  Under a
calendar where every date is a holiday everywhere, all six walks fail to
find a date for EVERY recursion bound — the original unbounded recursion
simply never returns, rather than failing explicitly after a bounded
horizon of a few years as the spec requires. -/
theorem c8_walks_unbounded (f : Nat) (z : Int) :
    next_business_day allHol pEURUSD f z = .error .fuelExhausted ∧
    prev_business_day allHol pEURUSD f z = .error .fuelExhausted ∧
    next_valid_spot allHol pEURUSD f z = .error .fuelExhausted ∧
    prev_valid_spot allHol pEURUSD f z = .error .fuelExhausted ∧
    next_valid_expiry allHol pEURUSD f z = .error .fuelExhausted ∧
    prev_valid_expiry allHol pEURUSD f z = .error .fuelExhausted :=
  ⟨walkE_allFalse allHol_business_EURUSD f z,
   walkE_allFalse allHol_business_EURUSD f z,
   walkE_allFalse allHol_spot_EURUSD f z,
   walkE_allFalse allHol_spot_EURUSD f z,
   walkE_allFalse (fun x => by rw [allHol_expiry_EURUSD]) f z,
   walkE_allFalse (fun x => by rw [allHol_expiry_EURUSD]) f z⟩

/-- C4 counterexample: USDUSD is constructible (USD is supported in both
legs), and on the holiday-free weekday 2021-06-30 `is_business_day` raises
the country-lookup failure instead of consulting both legs' calendars and
returning `ok true` as the claim asserts. -/
theorem c4_counterexample :
    is_business_day noHol pUSDUSD (daysFromCivil 2021 6 30)
        = .error .countryKey
  ∧ is_business_day noHol pUSDUSD (daysFromCivil 2021 6 30) ≠ .ok true :=
  ⟨rfl, fun h => Except.noConfusion h⟩

/-- C4 amended: weekends give `ok false` for every pair except USDUSD;
pairs with exactly one USD leg consult only the non-USD leg's calendar;
pairs with no USD leg (same-market pairs like GBPGBP included) consult both
legs' calendars and require the date to be a holiday in neither; the pair
USDUSD consults no calendar at all — `is_business_day` fails with the
country-key lookup error. -/
theorem c4_business_day_cases (hol : Oracle) (p : Pair) (z : Int) :
    (p = pUSDUSD → is_business_day hol p z = .error .countryKey)
  ∧ (p ≠ pUSDUSD → isWeekday z = false →
      is_business_day hol p z = .ok false)
  ∧ (p.1 = Ccy.USD → p.2 ≠ Ccy.USD →
      is_business_day hol p z
        = .ok (isWeekday z && !hol (countryCode p.2) z))
  ∧ (p.2 = Ccy.USD → p.1 ≠ Ccy.USD →
      is_business_day hol p z
        = .ok (isWeekday z && !hol (countryCode p.1) z))
  ∧ (p.1 ≠ Ccy.USD → p.2 ≠ Ccy.USD →
      (is_business_day hol p z = .ok true ↔
        (isWeekday z = true ∧ hol (countryCode p.1) z = false ∧
          hol (countryCode p.2) z = false))) := by
  obtain ⟨a, b⟩ := p
  refine ⟨fun hp => ?_, fun hp hw => ?_, fun h1 h2 => ?_, fun h1 h2 => ?_,
    fun h1 h2 => ?_⟩
  · rw [hp]
    exact is_business_day_USDUSD hol z
  · by_cases ha : a = Ccy.USD <;> by_cases hb2 : b = Ccy.USD
    · subst ha; subst hb2; exact absurd rfl hp
    · simp [is_business_day, ha, hb2, hw]
    · simp [is_business_day, ha, hb2, hw]
    · simp [is_business_day, ha, hb2, hw]
  · simp only at h1 h2
    simp [is_business_day, h1, h2]
  · simp only at h1 h2
    simp [is_business_day, h1, h2]
  · simp only at h1 h2
    simp [is_business_day, h1, h2, Bool.and_eq_true, and_assoc]

/-- Witness for C4 amended: USDUSD fails; Saturday 2021-07-03 is not a
business day for EURUSD; EURUSD (one USD leg) consults only the EUR
calendar; GBPGBP (no USD leg) is a business day on the holiday-free
Thursday 2021-07-01. -/
theorem c4_witness :
    is_business_day noHol pUSDUSD 0 = .error .countryKey
  ∧ is_business_day noHol pEURUSD (daysFromCivil 2021 7 3) = .ok false
  ∧ is_business_day noHol pEURUSD (daysFromCivil 2021 7 1)
      = .ok (isWeekday (daysFromCivil 2021 7 1)
          && !noHol (countryCode Ccy.EUR) (daysFromCivil 2021 7 1))
  ∧ is_business_day noHol pGBPGBP (daysFromCivil 2021 7 1) = .ok true := by
  refine ⟨(c4_business_day_cases noHol pUSDUSD 0).1 rfl,
    (c4_business_day_cases noHol pEURUSD (daysFromCivil 2021 7 3)).2.1
      (by decide) (by rfl),
    (c4_business_day_cases noHol pEURUSD (daysFromCivil 2021 7 1)).2.2.2.1
      rfl (by decide),
    ((c4_business_day_cases noHol pGBPGBP (daysFromCivil 2021 7 1)).2.2.2.2
      (by decide) (by decide)).mpr ⟨rfl, rfl, rfl⟩⟩

/-- C2: `spot_from_horizon` fails with the assertion error on a non-business
horizon; for the fast-settling pair it returns the nearest valid spot
strictly after the horizon (T+1); for every other pair it returns the
nearest valid spot strictly after the nearest business day strictly after
the horizon (T+2). -/
theorem c2_spot_from_horizon (hol : Oracle) (p : Pair) (f : Nat)
    (h s : Int) :
    (is_business_day hol p h = .ok false →
      spot_from_horizon hol p f h = .error .notBusinessDay)
  ∧ (fastSettling p = true → spot_from_horizon hol p f h = .ok s →
      h < s ∧ is_valid_spot hol p s = .ok true ∧
        ∀ x, h < x → x < s → is_valid_spot hol p x = .ok false)
  ∧ (fastSettling p = false → spot_from_horizon hol p f h = .ok s →
      ∃ b, next_business_day hol p f h = .ok b ∧
        h < b ∧ is_business_day hol p b = .ok true ∧
        (∀ x, h < x → x < b → is_business_day hol p x = .ok false) ∧
        b < s ∧ is_valid_spot hol p s = .ok true ∧
        ∀ x, b < x → x < s → is_valid_spot hol p x = .ok false) := by
  refine ⟨fun hb => spot_from_horizon_notBusiness hb,
    fun hf hs => ?_, fun hf hs => ?_⟩
  · have hw := (spot_from_horizon_ok hs).2.1 hf
    obtain ⟨h1, _, h3, h4⟩ := walkE_pos_ok f h s hw
    exact ⟨h1, h3, h4⟩
  · obtain ⟨b, hnb, hvs⟩ := (spot_from_horizon_ok hs).2.2 hf
    obtain ⟨h1, _, h3, h4⟩ := walkE_pos_ok f h b hnb
    obtain ⟨g1, _, g3, g4⟩ := walkE_pos_ok f b s hvs
    exact ⟨b, hnb, h1, h3, h4, g1, g3, g4⟩

/-- Witness for C2: EURUSD (standard) settles 2021-06-30 → 2021-07-02 (T+2);
USDCAD (fast-settling) settles 2021-06-30 → 2021-07-01 (T+1). -/
theorem c2_witness :
    spot_from_horizon noHol pEURUSD 100 (daysFromCivil 2021 6 30)
        = .ok (daysFromCivil 2021 7 2)
  ∧ daysFromCivil 2021 6 30 < daysFromCivil 2021 7 2
  ∧ is_valid_spot noHol pEURUSD (daysFromCivil 2021 7 2) = .ok true
  ∧ spot_from_horizon noHol pUSDCAD 100 (daysFromCivil 2021 6 30)
      = .ok (daysFromCivil 2021 7 1)
  ∧ daysFromCivil 2021 6 30 < daysFromCivil 2021 7 1 := by
  have h1 := (c2_spot_from_horizon noHol pEURUSD 100 (daysFromCivil 2021 6 30)
    (daysFromCivil 2021 7 2)).2.2 (by rfl) (by rfl)
  have h2 := (c2_spot_from_horizon noHol pUSDCAD 100 (daysFromCivil 2021 6 30)
    (daysFromCivil 2021 7 1)).2.1 (by rfl) (by rfl)
  obtain ⟨b, _, hb1, _, _, hb2, hvs, _⟩ := h1
  exact ⟨rfl, by omega, hvs, rfl, h2.1⟩

/-- C10: `<N>M`/`<N>Y` tenor resolution inherits the business-day assertion
of `spot_from_horizon` on the horizon date, failing with that assertion
error on a non-business horizon; `ON`, `<N>D` and `<N>W` resolution imposes
no such precondition — it can never fail with the business-day assertion
error. -/
theorem c10_horizon_precondition (hol : Oracle) (p : Pair) (f : Nat)
    (h : Int) (t : String) (c : Char) (n : Int) :
    (t ≠ "ON" → t.data.getLast? = some c → (c = 'M' ∨ c = 'Y') →
      parseIntPy (strInit t) = some n →
      is_business_day hol p h = .ok false →
      expiry_from_tenor hol p f h t = .error .notBusinessDay)
  ∧ ((t = "ON" ∨ (t.data.getLast? = some c ∧ (c = 'D' ∨ c = 'W') ∧
        parseIntPy (strInit t) = some n)) →
      expiry_from_tenor hol p f h t ≠ .error .notBusinessDay) := by
  constructor
  · intro hON hlast hcMY hparse hb
    have hd : ∀ m : Int,
        delivery_from_tenor hol p f h m = .error .notBusinessDay :=
      fun m => by rw [delivery_from_tenor, spot_from_horizon_notBusiness hb]
    rcases hcMY with hc | hc <;> subst hc <;>
      simp [expiry_from_tenor, hON, hlast, hparse, hd]
  · intro hyp hcontra
    rcases hyp with hON | ⟨hlast, hcDW, hparse⟩
    · subst hON
      rw [expiry_from_tenor, if_pos rfl] at hcontra
      exact Err.noConfusion (next_valid_expiry_err hcontra)
    · have hON : t ≠ "ON" := by
        intro hq
        subst hq
        rcases hcDW with hc | hc <;> subst hc <;> simp at hlast
      rw [expiry_from_tenor, if_neg hON] at hcontra
      rcases hcDW with hc | hc <;> subst hc <;>
        simp only [hlast, hparse] at hcontra <;>
        simp at hcontra <;>
        split at hcontra
      · exact Except.noConfusion hcontra
      · exact Err.noConfusion (next_valid_expiry_err hcontra)
      · exact Except.noConfusion hcontra
      · exact Err.noConfusion (next_valid_expiry_err hcontra)

/-- Witness for C10: "3M" on the Saturday 2021-07-03 horizon fails with the
business-day assertion; "3D" with zero fuel on a horizon whose D-shifted
date is a Sunday fails, but never with the business-day assertion. -/
theorem c10_witness :
    expiry_from_tenor noHol pEURUSD 100 (daysFromCivil 2021 7 3) "3M"
        = .error .notBusinessDay
  ∧ expiry_from_tenor noHol pEURUSD 0 0 "3D" ≠ .error .notBusinessDay :=
  ⟨(c10_horizon_precondition noHol pEURUSD 100 (daysFromCivil 2021 7 3)
      "3M" 'M' 3).1 (by decide) rfl (Or.inl rfl) (by rfl) (by rfl),
   (c10_horizon_precondition noHol pEURUSD 0 0 "3D" 'D' 3).2
      (Or.inr ⟨rfl, Or.inl rfl, by rfl⟩)⟩

/-- On every malformed tenor string, `expiry_from_tenor` reaches one of the
three parse failures (IndexError on the empty string, ValueError from
`int()`, or the explicit InputError). -/
theorem expiry_malformed {hol : Oracle} {p : Pair} {f : Nat} {h : Int}
    {t : String} (hm : malformedTenor t = true) :
    expiry_from_tenor hol p f h t = .error .indexError ∨
    expiry_from_tenor hol p f h t = .error .valueError ∨
    expiry_from_tenor hol p f h t = .error .inputError := by
  rw [malformedTenor] at hm
  by_cases hON : t = "ON"
  · rw [if_pos hON] at hm
    exact Bool.noConfusion hm
  · rw [if_neg hON] at hm
    cases hlast : t.data.getLast? with
    | none =>
      left
      rw [expiry_from_tenor, if_neg hON]
      simp [hlast]
    | some c =>
      simp only [hlast] at hm
      by_cases hc : c = 'D' ∨ c = 'W' ∨ c = 'M' ∨ c = 'Y'
      · rw [if_pos hc] at hm
        have hp : parseIntPy (strInit t) = none :=
          Option.isNone_iff_eq_none.mp hm
        right; left
        rw [expiry_from_tenor, if_neg hON]
        simp only [hlast]
        rcases hc with hc | hc | hc | hc <;> subst hc <;> simp [hp]
      · push_neg at hc
        right; right
        rw [expiry_from_tenor, if_neg hON]
        simp only [hlast]
        simp [hc.1, hc.2.1, hc.2.2.1, hc.2.2.2]

/-- C9 counterexample: the tenors "0D" and "-7D" — malformed per the spec,
whose N must be a positive integer — are accepted and silently return
dates ("0D" returns the horizon date itself). -/
theorem c9_counterexample :
    expiry_from_tenor noHol pEURUSD 100 (daysFromCivil 2021 6 30) "0D"
        = .ok (daysFromCivil 2021 6 30)
  ∧ expiry_from_tenor noHol pEURUSD 100 (daysFromCivil 2021 6 30) "-7D"
      = .ok (daysFromCivil 2021 6 23) :=
  ⟨rfl, rfl⟩

/-- C9 amended: `expiry_from_tenor` fails with a parse-class error exactly
on the tenors of `malformedTenor` — not `"ON"` and either empty, last
character outside D/W/M/Y, or non-integer prefix.  Any integer prefix is
accepted, including zero and negative N, silently returning a date; and the
InputError message lists the accepted forms without echoing the offending
string. -/
theorem c9_parse_failures (hol : Oracle) (p : Pair) (f : Nat) (h : Int)
    (t : String) :
    (malformedTenor t = true →
      ∀ e, expiry_from_tenor hol p f h t = .error e →
        Err.isParseErr e = true)
  ∧ (malformedTenor t = true →
      ∀ r, expiry_from_tenor hol p f h t ≠ .ok r)
  ∧ (malformedTenor t = false →
      ∀ e, expiry_from_tenor hol p f h t = .error e →
        Err.isParseErr e = false) := by
  refine ⟨fun hm e he => ?_, fun hm r hr => ?_, fun hm e he => ?_⟩
  · rcases @expiry_malformed hol p f h t hm with
      h1 | h1 | h1 <;> rw [he] at h1 <;> injection h1 with h1 <;>
      rw [h1] <;> rfl
  · rcases @expiry_malformed hol p f h t hm with
      h1 | h1 | h1 <;> rw [hr] at h1 <;> exact Except.noConfusion h1
  · rw [malformedTenor] at hm
    by_cases hON : t = "ON"
    · subst hON
      rw [expiry_from_tenor, if_pos rfl] at he
      rw [next_valid_expiry_err he]
      rfl
    · rw [if_neg hON] at hm
      cases hlast : t.data.getLast? with
      | none => simp [hlast] at hm
      | some c =>
        simp only [hlast] at hm
        by_cases hc : c = 'D' ∨ c = 'W' ∨ c = 'M' ∨ c = 'Y'
        · rw [if_pos hc] at hm
          cases hp : parseIntPy (strInit t) with
          | none => rw [hp] at hm; exact Bool.noConfusion hm
          | some n =>
            rw [expiry_from_tenor, if_neg hON] at he
            simp only [hlast] at he
            rcases hc with hc | hc | hc | hc <;> subst hc <;>
              simp only [hp] at he <;> simp at he
            · split at he
              · exact Except.noConfusion he
              · rw [next_valid_expiry_err he]; rfl
            · split at he
              · exact Except.noConfusion he
              · rw [next_valid_expiry_err he]; rfl
            · cases hd : delivery_from_tenor hol p f h n with
              | error e2 =>
                rw [hd] at he
                injection he with he
                exact he ▸ delivery_from_tenor_noParse hd
              | ok dd =>
                rw [hd] at he
                simp only at he
                cases hh : horizon_from_spot hol p f dd with
                | error e2 =>
                  rw [hh] at he
                  injection he with he
                  exact he ▸ horizon_from_spot_noParse hh
                | ok ex =>
                  rw [hh] at he
                  simp only at he
                  split at he
                  · exact Except.noConfusion he
                  · rw [prev_valid_expiry_err he]; rfl
            · cases hd : delivery_from_tenor hol p f h (n * 12) with
              | error e2 =>
                rw [hd] at he
                injection he with he
                exact he ▸ delivery_from_tenor_noParse hd
              | ok dd =>
                rw [hd] at he
                simp only at he
                cases hh : horizon_from_spot hol p f dd with
                | error e2 =>
                  rw [hh] at he
                  injection he with he
                  exact he ▸ horizon_from_spot_noParse hh
                | ok ex =>
                  rw [hh] at he
                  simp only at he
                  split at he
                  · exact Except.noConfusion he
                  · rw [prev_valid_expiry_err he]; rfl
        · rw [if_neg hc] at hm
          exact Bool.noConfusion hm

/-- Witness for C9 amended: "5X" reaches the InputError (a parse error);
"3D" with exhausted fuel fails only with the non-parse fuel error. -/
theorem c9_witness :
    Err.isParseErr Err.inputError = true ∧
      Err.isParseErr Err.fuelExhausted = false :=
  ⟨(c9_parse_failures noHol pEURUSD 100 0 "5X").1 (by rfl)
      Err.inputError (by rfl),
   (c9_parse_failures noHol pEURUSD 0 0 "3D").2.2 (by rfl)
      Err.fuelExhausted (by rfl)⟩

/-- C1 counterexample: pair EURUSD, holiday-free calendar, horizon Monday
2020-12-28, tenor 1M (n = 1).  Spot is Wednesday 2020-12-30; one month on
is Saturday 2021-01-30, snapped forward to Monday 2021-02-01; the backward
correction loop compares raw month numbers (2 − 12 = −10, not > 1) and
never fires, leaving the delivery date TWO months after the spot date. -/
theorem c1_counterexample :
    spot_from_horizon noHol pEURUSD 100 (daysFromCivil 2020 12 28)
        = .ok (daysFromCivil 2020 12 30)
  ∧ delivery_from_tenor noHol pEURUSD 100 (daysFromCivil 2020 12 28) 1
      = .ok (daysFromCivil 2021 2 1)
  ∧ monthDistance (daysFromCivil 2020 12 30) (daysFromCivil 2021 2 1) = 2
  ∧ ¬ monthDistance (daysFromCivil 2020 12 30) (daysFromCivil 2021 2 1)
        ≤ 1 :=
  ⟨rfl, rfl, by decide, by decide⟩

/-- C1 amended: the backward-correction loop guarantees only that the RAW
month number (1–12) of the settled delivery date exceeds the spot date's
raw month number by at most n.  When the delivery date stays in the spot
date's calendar year this equals the true month distance, which is then
≤ n; when the delivery date rolls into a later calendar year (December spot
into January and beyond) the true month distance can exceed n. -/
theorem c1_delivery_month_bound (hol : Oracle) (p : Pair) (f : Nat)
    (h n s dd : Int) :
    spot_from_horizon hol p f h = .ok s →
    delivery_from_tenor hol p f h n = .ok dd →
    ((civilFromDays dd).month - (civilFromDays s).month ≤ n ∧
      ((civilFromDays dd).year = (civilFromDays s).year →
        monthDistance s dd ≤ n)) := by
  intro hs hd
  rw [delivery_from_tenor] at hd
  simp only [hs] at hd
  have key : (civilFromDays dd).month - (civilFromDays s).month ≤ n := by
    cases hv : is_valid_spot hol p (addMonths s n) with
    | error e => rw [hv] at hd; simp at hd
    | ok b =>
      cases b with
      | true =>
        rw [hv] at hd
        simp only at hd
        exact adjust_back_ok f _ dd hd
      | false =>
        rw [hv] at hd
        simp only at hd
        cases hw : next_valid_spot hol p f (addMonths s n) with
        | error e => rw [hw] at hd; simp at hd
        | ok dd1 =>
          rw [hw] at hd
          simp only at hd
          exact adjust_back_ok f dd1 dd hd
  refine ⟨key, fun hy => ?_⟩
  rw [monthDistance, hy]
  omega

/-- Witness for C1 amended: horizon 2014-06-11 with a 1M tenor settles on
delivery 2014-07-14, one raw month and one true month after the spot
2014-06-13, both within the same year. -/
theorem c1_witness :
    (civilFromDays (daysFromCivil 2014 7 14)).month
        - (civilFromDays (daysFromCivil 2014 6 13)).month ≤ 1
  ∧ monthDistance (daysFromCivil 2014 6 13) (daysFromCivil 2014 7 14)
        ≤ 1 := by
  have h := c1_delivery_month_bound noHol pEURUSD 100 (daysFromCivil 2014 6 11)
    1 (daysFromCivil 2014 6 13) (daysFromCivil 2014 7 14) (by rfl) (by rfl)
  exact ⟨h.1, h.2 (by decide)⟩

/-- C3 counterexample: EURUSD, a calendar whose only holiday is a US
holiday on Friday 2021-07-02, horizon Wednesday 2021-06-30 (a business
day).  The forward T+2 walk skips the US holiday and the weekend to the
spot Monday 2021-07-05, but the backward walk steps through Friday (an
EURUSD business day — US holidays are ignored there) to Thursday
2021-07-01, not back to the horizon. -/
theorem c3_counterexample :
    is_business_day usHolJul2 pEURUSD (daysFromCivil 2021 6 30) = .ok true
  ∧ spot_from_horizon usHolJul2 pEURUSD 100 (daysFromCivil 2021 6 30)
      = .ok (daysFromCivil 2021 7 5)
  ∧ horizon_from_spot usHolJul2 pEURUSD 100 (daysFromCivil 2021 7 5)
      = .ok (daysFromCivil 2021 7 1)
  ∧ daysFromCivil 2021 7 1 ≠ daysFromCivil 2021 6 30 :=
  ⟨rfl, rfl, rfl, by decide⟩

/-- C3 amended: the failure clause holds unconditionally — a non-valid-spot
input makes `horizon_from_spot` fail with the assertion error — and the
round trip `horizon_from_spot ∘ spot_from_horizon` restores the horizon
under a holiday-free calendar for every business-day horizon other than a
January 1st; with holidays present (or on a January-1st horizon) the round
trip can land on a different date. -/
theorem c3_roundtrip_noHol :
    (∀ (p : Pair) (f : Nat) (h s : Int), isJan1 h = false →
      spot_from_horizon noHol p f h = .ok s →
      horizon_from_spot noHol p f s = .ok h)
  ∧ (∀ (hol : Oracle) (p : Pair) (f : Nat) (s : Int),
      is_valid_spot hol p s = .ok false →
      horizon_from_spot hol p f s = .error .notValidSpot) := by
  constructor
  · intro p f h s hj hs
    obtain ⟨hb, hfast, hstd⟩ := spot_from_horizon_ok hs
    have hp : p ≠ pUSDUSD := by
      intro hq
      rw [hq, is_business_day_USDUSD] at hb
      exact Except.noConfusion hb
    have hwh : isWeekday h = true := by
      rw [noHol_business hp] at hb
      exact Except.ok.inj hb
    by_cases hf : fastSettling p = true
    · have hw := hfast hf
      obtain ⟨h1, h2, h3, h4⟩ := walkE_pos_ok f h s hw
      rw [horizon_from_spot_eq h3, if_pos hf]
      apply walkE_neg_complete f s h h1 (by omega)
      · simp [noHol_expiry, hwh, hj]
      · intro x hx1 hx2
        have hvx := h4 x hx1 hx2
        rw [noHol_spot hp] at hvx
        have hwx := Except.ok.inj hvx
        simp [noHol_expiry, hwx]
    · have hf2 : fastSettling p = false := by
        revert hf
        cases fastSettling p <;> simp
      obtain ⟨b, hnb, hvs⟩ := hstd hf2
      obtain ⟨hb1, hb2, hb3, hb4⟩ := walkE_pos_ok f h b hnb
      obtain ⟨hs1, hs2, hs3, hs4⟩ := walkE_pos_ok f b s hvs
      rw [horizon_from_spot_eq hs3]
      simp only [hf2, Bool.false_eq_true, if_false]
      have hpb : prev_business_day noHol p f s = .ok b := by
        apply walkE_neg_complete f s b hs1 (by omega) hb3
        intro x hx1 hx2
        have hvx := hs4 x hx1 hx2
        rw [noHol_spot hp] at hvx
        have hwx := Except.ok.inj hvx
        rw [noHol_business hp, hwx]
      rw [hpb]
      show prev_valid_expiry noHol p f b = .ok h
      apply walkE_neg_complete f b h hb1 (by omega)
      · simp [noHol_expiry, hwh, hj]
      · intro x hx1 hx2
        have hvx := hb4 x hx1 hx2
        rw [noHol_business hp] at hvx
        have hwx := Except.ok.inj hvx
        simp [noHol_expiry, hwx]
  · exact fun hol p f s hv => horizon_from_spot_notValid hv

/-- Witness for C3 amended: the holiday-free round trip
2021-06-30 → 2021-07-02 → 2021-06-30 for EURUSD, and the assertion failure
on the Saturday 2021-07-03. -/
theorem c3_witness :
    horizon_from_spot noHol pEURUSD 100 (daysFromCivil 2021 7 2)
        = .ok (daysFromCivil 2021 6 30)
  ∧ horizon_from_spot noHol pEURUSD 100 (daysFromCivil 2021 7 3)
      = .error .notValidSpot :=
  ⟨c3_roundtrip_noHol.1 pEURUSD 100 (daysFromCivil 2021 6 30)
      (daysFromCivil 2021 7 2) (by rfl) (by rfl),
   c3_roundtrip_noHol.2 noHol pEURUSD 100 (daysFromCivil 2021 7 3) (by rfl)⟩

end TenorDates
